import Mathlib

/-!
Weather Dashboard — verification of the core logic.

Shallow embedding of `src/components/Weather.js`: the city registry, the
weather store with its fetch orchestration, and the pure forecast
transformers (`isDay`, `getWeatherIcon`, the date grouping in
`renderForecastCards`, and `generateChartData`).

JavaScript numbers that only flow through the code (temperatures,
humidity, wind speeds, pressures) are modelled as `Rat`; timestamps as
`Int`.  A JS `Date` is observed by the code only through
`toLocaleDateString` and `toLocaleTimeString`, so it is modelled by those
two projections; the host `Date` constructor is passed as an explicit
parameter where the code builds dates.  A JS object keyed by strings is
modelled as an association list in key insertion order, matching the JS
string-key enumeration order used by `Object.entries`.
-/

namespace WeatherDashboard

/-! JS string primitives: `toLowerCase` and `includes`. -/

/-- Does `p` occur at the head of `l`?  (`List Char` version of a prefix
test, used to model `String.prototype.includes`.) -/
def charsStartWith : List Char → List Char → Bool
  | [], _ => true
  | _ :: _, [] => false
  | p :: ps, c :: cs => p == c && charsStartWith ps cs

/-- Does the pattern `pat` occur anywhere in `l`? -/
def charsContain (pat : List Char) : List Char → Bool
  | [] => charsStartWith pat []
  | c :: tl => charsStartWith pat (c :: tl) || charsContain pat tl

/-- JavaScript `s.includes(pat)`. -/
def strIncludes (s pat : String) : Bool :=
  charsContain pat.toList s.toList

/-- JavaScript `s.toLowerCase()` (character-wise lowering). -/
def jsToLowerCase (s : String) : String :=
  String.mk (s.toList.map Char.toLower)

/-! Data model. -/

/-- A JS `Date`, observed through the two locale renderings the component
uses (`toLocaleDateString` for the calendar day, `toLocaleTimeString`
for the time of day). -/
structure JSDate where
  localeDateString : String
  localeTimeString : String
deriving DecidableEq, Repr

/-- The `main` block of the provider payloads. -/
structure MainBlock where
  temp : Rat
  feels_like : Rat
  humidity : Rat
  pressure : Rat
deriving DecidableEq, Repr

/-- The `wind` block of the provider payloads. -/
structure WindBlock where
  speed : Rat
deriving DecidableEq, Repr

/-- One element of the provider `weather` array. -/
structure WeatherEntry where
  description : String
  icon : String
deriving DecidableEq, Repr

/-- The `sys` block of the current-conditions payload. -/
structure SysBlock where
  country : String
  sunrise : Int
  sunset : Int
deriving DecidableEq, Repr

/-- The raw current-conditions response body (`weatherResponse.data`),
stored wholesale in the snapshot. -/
structure CurrentConditions where
  name : String
  dt : Int
  main : MainBlock
  wind : WindBlock
  weather : List WeatherEntry
  sys : SysBlock
deriving DecidableEq, Repr

/-- One raw entry of `forecastResponse.data.list`. -/
structure RawForecastItem where
  dt : Int
  main : MainBlock
  wind : WindBlock
  weather : List WeatherEntry
deriving DecidableEq, Repr

/-- A mapped forecast entry, as built inside `fetchWeather`. -/
structure ForecastPoint where
  date : JSDate
  temp : Rat
  feels_like : Rat
  humidity : Rat
  wind_speed : Rat
  description : String
  icon : String
deriving DecidableEq, Repr

/-- Value stored at `weatherData[city]`: the raw current conditions plus
the mapped forecast list. -/
structure CitySnapshot where
  current : CurrentConditions
  forecast : List ForecastPoint
deriving DecidableEq, Repr

/-- The `weatherData` JS object: an association list from city name to
snapshot, in key insertion order. -/
abbrev WeatherStore := List (String × CitySnapshot)

/-- Reading `weatherData[k]`. -/
def lookupKey : WeatherStore → String → Option CitySnapshot
  | [], _ => none
  | (k, v) :: rest, key => if k = key then some v else lookupKey rest key

/-- The spread-merge `{...prev, [k]: v}`: replaces the value in place if
the key exists (keeping its position), otherwise appends the key. -/
def setKey : WeatherStore → String → CitySnapshot → WeatherStore
  | [], key, v => [(key, v)]
  | (k, w) :: rest, key, v =>
      if k = key then (key, v) :: rest else (k, w) :: setKey rest key v

/-- The rest-destructuring delete `const \x7b [k]: _, ...rest \x7d = prev`. -/
def removeKey (m : WeatherStore) (key : String) : WeatherStore :=
  m.filter (fun p => p.1 ≠ key)

/-! Pure transformer functions. -/

/-- The icon components returned by `getWeatherIcon`. -/
inductive Icon where
  | daySunny | nightClear | dayCloudy | nightAltCloudy | cloud | cloudy
  | showers | rain | thunderstorm | snow | fog | dust
deriving DecidableEq, Repr

/-- Model of `getWeatherIcon(description, isDay)` in `Weather.js` (lines 49–76):
lower-cases the description, then a `switch (true)` over `includes`
tests in source order, defaulting to the day-sunny icon. -/
def getWeatherIcon (description : String) (isDayFlag : Bool) : Icon :=
  let lowerDesc := jsToLowerCase description
  if strIncludes lowerDesc "clear" then
    if isDayFlag then .daySunny else .nightClear
  else if strIncludes lowerDesc "few clouds" then
    if isDayFlag then .dayCloudy else .nightAltCloudy
  else if strIncludes lowerDesc "scattered clouds" then .cloud
  else if strIncludes lowerDesc "broken clouds" || strIncludes lowerDesc "overcast" then .cloudy
  else if strIncludes lowerDesc "shower" || strIncludes lowerDesc "drizzle" then .showers
  else if strIncludes lowerDesc "rain" then .rain
  else if strIncludes lowerDesc "thunderstorm" then .thunderstorm
  else if strIncludes lowerDesc "snow" || strIncludes lowerDesc "sleet" then .snow
  else if strIncludes lowerDesc "mist" || strIncludes lowerDesc "fog" then .fog
  else if strIncludes lowerDesc "dust" || strIncludes lowerDesc "sand" then .dust
  else .daySunny

/-- Model of `isDay(current, sunrise, sunset)` in `Weather.js` (lines 78–80):
`current > sunrise && current < sunset`. -/
def isDay (current sunrise sunset : Int) : Bool :=
  decide (current > sunrise) && decide (current < sunset)

/-! Fetch orchestration (`fetchWeather`, lines 91–114).

Each network call either yields a parsed body or throws (network error,
non-success status rejected by axios, or a malformed body making a field
access throw); a throw anywhere inside the `try` lands in the single
`catch`, which only logs.  The host `new Date(ms)` constructor is passed
in as `mkDate`. -/

/-- The message string `console.error` is called with in the `catch`. -/
def fetchErrorMessage : String := "Error fetching the weather data"

/-- The arrow body of `forecastResponse.data.list.map(...)`: builds one
`ForecastPoint`; accessing `item.weather[0].description` on an empty
`weather` array throws (modelled as `Except.error`). -/
def mapForecastItem (mkDate : Int → JSDate) (item : RawForecastItem) :
    Except String ForecastPoint :=
  match item.weather.head? with
  | none => .error "TypeError"
  | some w =>
      .ok { date := mkDate (item.dt * 1000)
            temp := item.main.temp
            feels_like := item.main.feels_like
            humidity := item.main.humidity
            wind_speed := item.wind.speed
            description := w.description
            icon := w.icon }

/-- Model of `forecastResponse.data.list.map(...)`, propagating a throw
from any element. -/
def mapForecastItems (mkDate : Int → JSDate) :
    List RawForecastItem → Except String (List ForecastPoint)
  | [] => .ok []
  | item :: rest => do
      let fp ← mapForecastItem mkDate item
      let fps ← mapForecastItems mkDate rest
      .ok (fp :: fps)

/-- One invocation of `fetchWeather(cityName)`, from the moment both
responses are in hand (or one has failed) to the `setWeatherData`
functional update.  `store` is the value of `weatherData` at the moment
the updater runs; `log` is the `console.error` diagnostic channel. -/
def fetchWeather (mkDate : Int → JSDate) (cityName : String)
    (currentResp : Except String CurrentConditions)
    (forecastResp : Except String (List RawForecastItem))
    (store : WeatherStore) (log : List String) :
    WeatherStore × List String :=
  match currentResp with
  | .error _ => (store, log ++ [fetchErrorMessage])
  | .ok cur =>
      match forecastResp with
      | .error _ => (store, log ++ [fetchErrorMessage])
      | .ok items =>
          match mapForecastItems mkDate items with
          | .error _ => (store, log ++ [fetchErrorMessage])
          | .ok fps => (setKey store cityName { current := cur, forecast := fps }, log)

/-! City registry handlers (lines 116–130). -/

/-- Model of `handleAddCity` (lines 116–122), with the input field value `city`
made an explicit argument.  JS truthiness of a string: only `""` is
falsy.  Returns the new `cities` list and the list of fetches started
by this call. -/
def handleAddCity (city : String) (cities : List String) :
    List String × List String :=
  if city ≠ "" ∧ city ∉ cities then (cities ++ [city], [city]) else (cities, [])

/-- Model of `handleDeleteCity` (lines 124–130): filters the registry and deletes
the store key in the same handler. -/
def handleDeleteCity (cityName : String) (cities : List String)
    (store : WeatherStore) : List String × WeatherStore :=
  (cities.filter (fun c => c ≠ cityName), removeKey store cityName)

/-! Chart data (`generateChartData`, lines 132–161). -/

structure Dataset where
  label : String
  data : List Rat
  borderColor : String
  backgroundColor : String
  yAxisID : String
deriving DecidableEq, Repr

structure ChartData where
  labels : List String
  datasets : List Dataset
deriving DecidableEq, Repr

/-- Model of `generateChartData(forecast)`: one label per point (its
locale time string) and three parallel series. -/
def generateChartData (forecast : List ForecastPoint) : ChartData :=
  { labels := forecast.map (fun item => item.date.localeTimeString)
    datasets :=
      [ { label := "Temperature (°C)"
          data := forecast.map (fun item => item.temp)
          borderColor := "rgba(255, 99, 132, 1)"
          backgroundColor := "rgba(255, 99, 132, 0.2)"
          yAxisID := "y-axis-1" },
        { label := "Humidity (%)"
          data := forecast.map (fun item => item.humidity)
          borderColor := "rgba(54, 162, 235, 1)"
          backgroundColor := "rgba(54, 162, 235, 0.2)"
          yAxisID := "y-axis-2" },
        { label := "Wind Speed (m/s)"
          data := forecast.map (fun item => item.wind_speed)
          borderColor := "rgba(75, 192, 192, 1)"
          backgroundColor := "rgba(75, 192, 192, 0.2)"
          yAxisID := "y-axis-3" } ] }

/-! Date grouping (`renderForecastCards`, lines 210–217).

`forecast.reduce(...)` builds a JS object keyed by
`item.date.toLocaleDateString()`; `Object.entries` then enumerates those
(non-index) string keys in insertion order. -/

/-- The calendar-day key of a forecast point. -/
def dayKey (item : ForecastPoint) : String :=
  item.date.localeDateString

/-- One `reduce` step: push `item` onto the group of its day key,
creating the key at the end of the object when absent. -/
def pushGroup : List (String × List ForecastPoint) → ForecastPoint →
    List (String × List ForecastPoint)
  | [], item => [(dayKey item, [item])]
  | (k, g) :: rest, item =>
      if k = dayKey item then (k, g ++ [item]) :: rest
      else (k, g) :: pushGroup rest item

/-- The grouped forecast, as `Object.entries` enumerates it. -/
def groupByDay (forecast : List ForecastPoint) :
    List (String × List ForecastPoint) :=
  forecast.foldl pushGroup []

/-! Session-level state machine.

The cooperative event loop serialises registry and store mutations; the
atomic events are the two click handlers and the completion (success or
failure) of an in-flight fetch.  `pending` records fetches started but
not yet completed; a completion event for a city with no pending fetch
cannot occur and is modelled as a no-op. -/

inductive Event where
  | add (name : String)
  | remove (name : String)
  | fetchOk (name : String) (cur : CurrentConditions) (fps : List ForecastPoint)
  | fetchErr (name : String)
deriving DecidableEq, Repr

structure DashState where
  cities : List String
  weatherData : WeatherStore
  pending : List String
  errorLog : List String
deriving DecidableEq, Repr

/-- The initial component state: `useState([])` / `useState({})`. -/
def initState : DashState :=
  { cities := [], weatherData := [], pending := [], errorLog := [] }

/-- One atomic event of the UI task sequence. -/
def step (s : DashState) : Event → DashState
  | .add name =>
      if name ≠ "" ∧ name ∉ s.cities then
        { s with cities := s.cities ++ [name], pending := s.pending ++ [name] }
      else s
  | .remove name =>
      { s with cities := s.cities.filter (fun c => c ≠ name)
               weatherData := removeKey s.weatherData name }
  | .fetchOk name cur fps =>
      if name ∈ s.pending then
        { s with pending := s.pending.erase name
                 weatherData := setKey s.weatherData name { current := cur, forecast := fps } }
      else s
  | .fetchErr name =>
      if name ∈ s.pending then
        { s with pending := s.pending.erase name
                 errorLog := s.errorLog ++ [fetchErrorMessage] }
      else s

/-- Run a trace of events from a given state. -/
def runFrom (s : DashState) (events : List Event) : DashState :=
  events.foldl step s

/-- Run a trace of events from the empty initial state. -/
def run (events : List Event) : DashState :=
  runFrom initState events

/-! Spec-side reference definitions. -/

/-- Does this event complete a fetch for `x` successfully? -/
def isFetchOkFor (x : String) : Event → Bool
  | .fetchOk name _ _ => name = x
  | _ => false

/-- The registry evolution predicted by the spec: a successful add
appends at the end, a removal filters the name out, fetch completions
leave the registry alone. -/
def registryStep (reg : List String) : Event → List String
  | .add n => if n ≠ "" ∧ n ∉ reg then reg ++ [n] else reg
  | .remove n => reg.filter (fun c => c ≠ n)
  | .fetchOk _ _ _ => reg
  | .fetchErr _ => reg

/-- The sequence of successfully added names minus removed names, in
insertion order (the spec's description of the registry content). -/
def registrySpec (events : List Event) : List String :=
  events.foldl registryStep []

/-- Whether `description` matches none of the substring rules of
`getWeatherIcon`. -/
def noRuleMatches (description : String) : Bool :=
  let d := jsToLowerCase description
  !strIncludes d "clear" && !strIncludes d "few clouds"
    && !strIncludes d "scattered clouds" && !strIncludes d "broken clouds"
    && !strIncludes d "overcast" && !strIncludes d "shower"
    && !strIncludes d "drizzle" && !strIncludes d "rain"
    && !strIncludes d "thunderstorm" && !strIncludes d "snow"
    && !strIncludes d "sleet" && !strIncludes d "mist"
    && !strIncludes d "fog" && !strIncludes d "dust"
    && !strIncludes d "sand"

/-- The day keys of a forecast in first-occurrence order, skipping keys
already in `seen`. -/
def newDays (seen : List String) : List ForecastPoint → List String
  | [] => []
  | item :: rest =>
      if dayKey item ∈ seen then newDays seen rest
      else dayKey item :: newDays (dayKey item :: seen) rest

/-- The spec's description of the grouped forecast: one group per
calendar day in first-occurrence order, each group being the
subsequence of input points of that day in original order. -/
def groupByDaySpec (forecast : List ForecastPoint) :
    List (String × List ForecastPoint) :=
  (newDays [] forecast).map
    (fun k => (k, forecast.filter (fun item => dayKey item = k)))

/-! Sample values for concrete instantiations. -/

def sampleDate : JSDate :=
  { localeDateString := "1/1/2024", localeTimeString := "00:00" }

def sampleCurrent : CurrentConditions :=
  { name := "London"
    dt := 1000
    main := { temp := 10, feels_like := 9, humidity := 80, pressure := 1012 }
    wind := { speed := 3 }
    weather := [{ description := "clear sky", icon := "01d" }]
    sys := { country := "GB", sunrise := 500, sunset := 1500 } }

def sampleSnapshot : CitySnapshot :=
  { current := sampleCurrent, forecast := [] }

/-- A forecast point on day `d` at time `t` with temperature `x`. -/
def samplePoint (d t : String) (x : Rat) : ForecastPoint :=
  { date := { localeDateString := d, localeTimeString := t }
    temp := x
    feels_like := x
    humidity := 50
    wind_speed := 2
    description := "clear sky"
    icon := "01d" }

end WeatherDashboard

namespace WeatherDashboard

/-! Shared helper lemmas about the store operations. -/

/-- Writing one key leaves every other key of the store unchanged. -/
theorem lookupKey_setKey_ne (store : WeatherStore) (name k : String)
    (v : CitySnapshot) (h : k ≠ name) :
    lookupKey (setKey store name v) k = lookupKey store k := by
  induction store with
  | nil => simp [setKey, lookupKey, Ne.symm h]
  | cons p rest ih =>
    obtain ⟨k0, v0⟩ := p
    by_cases hk : k0 = name
    · subst hk
      simp [setKey, lookupKey, h, Ne.symm h]
    · simp only [setKey, if_neg hk]
      by_cases hk2 : k0 = k <;> simp [lookupKey, hk2, ih]

/-- Unfolding `removeKey` over a cons cell. -/
theorem removeKey_cons (k0 : String) (v0 : CitySnapshot) (rest : WeatherStore)
    (y : String) :
    removeKey ((k0, v0) :: rest) y
      = if k0 = y then removeKey rest y else (k0, v0) :: removeKey rest y := by
  by_cases hk : k0 = y <;> simp [removeKey, List.filter_cons, hk]

/-- Deleting a key removes it from the store. -/
theorem lookupKey_removeKey_self (m : WeatherStore) (x : String) :
    lookupKey (removeKey m x) x = none := by
  induction m with
  | nil => rfl
  | cons p rest ih =>
    obtain ⟨k0, v0⟩ := p
    rw [removeKey_cons]
    by_cases hk : k0 = x
    · rw [if_pos hk]; exact ih
    · rw [if_neg hk]
      show (if k0 = x then some v0 else lookupKey (removeKey rest x) x) = none
      rw [if_neg hk]; exact ih

/-- Deleting one key leaves every other key unchanged. -/
theorem lookupKey_removeKey_other (m : WeatherStore) (x y : String) (h : x ≠ y) :
    lookupKey (removeKey m y) x = lookupKey m x := by
  induction m with
  | nil => rfl
  | cons p rest ih =>
    obtain ⟨k0, v0⟩ := p
    rw [removeKey_cons]
    by_cases hk : k0 = y
    · subst hk
      rw [if_pos rfl]
      show lookupKey (removeKey rest k0) x
          = if k0 = x then some v0 else lookupKey rest x
      rw [if_neg (fun hh => h hh.symm), ih]
    · rw [if_neg hk]
      show (if k0 = x then some v0 else lookupKey (removeKey rest y) x)
          = if k0 = x then some v0 else lookupKey rest x
      by_cases hk2 : k0 = x
      · rw [if_pos hk2, if_pos hk2]
      · rw [if_neg hk2, if_neg hk2, ih]

/-! Claim C6 — `isDay` uses strict inequalities on both ends. -/

/-- C6: `isDay t sunrise sunset` is true exactly when
`sunrise < t ∧ t < sunset`; in particular it is false at `t = sunrise`
and at `t = sunset`. -/
theorem c6_isDaytime_strict (t sunrise sunset : Int) :
    (isDay t sunrise sunset = true ↔ sunrise < t ∧ t < sunset)
    ∧ isDay sunrise sunrise sunset = false
    ∧ isDay sunset sunrise sunset = false := by
  refine ⟨?_, ?_, ?_⟩ <;> simp [isDay]

/-! Claim C9 — `generateChartData` produces index-aligned labels and
exactly three series of the forecast length. -/

/-- C9: `generateChartData forecast` has one label per forecast point,
exactly three datasets each of the forecast length, the entry at any
index `i` of each series comes from the point at index `i`
(temperature, humidity, wind speed respectively), and the empty
forecast yields empty labels and three empty series. -/
theorem c9_toChartSeries (forecast : List ForecastPoint) (i : Nat) :
    (generateChartData forecast).labels.length = forecast.length
    ∧ (generateChartData forecast).datasets.length = 3
    ∧ (generateChartData forecast).datasets.map (fun d => d.data.length)
        = [forecast.length, forecast.length, forecast.length]
    ∧ (generateChartData forecast).labels[i]?
        = (forecast[i]?).map (fun item => item.date.localeTimeString)
    ∧ (generateChartData forecast).datasets.map (fun d => d.data[i]?)
        = [(forecast[i]?).map (fun item => item.temp),
           (forecast[i]?).map (fun item => item.humidity),
           (forecast[i]?).map (fun item => item.wind_speed)]
    ∧ (generateChartData []).labels = []
    ∧ (generateChartData []).datasets.map (fun d => d.data) = [[], [], []] := by
  refine ⟨?_, ?_, ?_, ?_, ?_, ?_, ?_⟩ <;> simp [generateChartData]

/-! Claim C10 — the default icon ignores the day/night flag. -/

/-- C10: when the description matches none of the substring rules,
`getWeatherIcon` returns the daytime sunny icon for both values of the
day flag. -/
theorem c10_default_ignores_day (description : String) (b : Bool)
    (h : noRuleMatches description = true) :
    getWeatherIcon description b = Icon.daySunny := by
  simp only [noRuleMatches, Bool.and_eq_true, Bool.not_eq_true'] at h
  obtain ⟨⟨⟨⟨⟨⟨⟨⟨⟨⟨⟨⟨⟨⟨h1, h2⟩, h3⟩, h4⟩, h5⟩, h6⟩, h7⟩, h8⟩, h9⟩, h10⟩, h11⟩, h12⟩, h13⟩, h14⟩, h15⟩ := h
  simp [getWeatherIcon, h1, h2, h3, h4, h5, h6, h7, h8, h9, h10, h11, h12, h13, h14, h15]

/-- Witness for C10 at the concrete unmatched description `"xyz"`. -/
theorem c10_witness :
    getWeatherIcon "xyz" true = Icon.daySunny
    ∧ getWeatherIcon "xyz" false = Icon.daySunny :=
  ⟨c10_default_ignores_day "xyz" true (by decide),
   c10_default_ignores_day "xyz" false (by decide)⟩

/-! Claim C3 — corrected.  The code only rejects the empty string (JS
truthiness), so a whitespace-only name such as a single space is added
and fetched, contradicting the no-op-on-blank part of the claim. -/

/-- Counterexample to C3 as stated: the blank name consisting of one
space is not a no-op — it is appended to the registry and a fetch is
started for it. -/
theorem c3_counterexample :
    handleAddCity " " [] = ([" "], [" "]) ∧ handleAddCity " " [] ≠ ([], []) := by
  constructor <;> decide

/-- C3 (amended): `handleAddCity name cities` is a no-op exactly when
`name` is the empty string or already present under exact string
equality; otherwise it appends `name` at the end and starts exactly one
fetch for `name`. -/
theorem c3_addCity (name : String) (cities : List String) :
    (name = "" ∨ name ∈ cities → handleAddCity name cities = (cities, []))
    ∧ (name ≠ "" → name ∉ cities →
        handleAddCity name cities = (cities ++ [name], [name])) := by
  constructor
  · intro h
    rcases h with h | h <;> simp [handleAddCity, h]
  · intro h1 h2
    simp [handleAddCity, h1, h2]

/-- Witness for C3 at a fresh name and at the empty string. -/
theorem c3_witness :
    handleAddCity "Paris" [] = (["Paris"], ["Paris"])
    ∧ handleAddCity "" ["A"] = (["A"], []) :=
  ⟨(c3_addCity "Paris" []).2 (by decide) (by simp),
   (c3_addCity "" ["A"]).1 (Or.inl rfl)⟩

/-! Claim C5 — the merge is keyed: other cities are untouched. -/

/-- C5: for any outcome of `fetchWeather cityName`, the store entry of
every key other than `cityName` is exactly what it was in the store the
updater ran against (so concurrent writes to other cities survive). -/
theorem c5_keyed_merge (mkDate : Int → JSDate) (cityName : String)
    (currentResp : Except String CurrentConditions)
    (forecastResp : Except String (List RawForecastItem))
    (store : WeatherStore) (log : List String) (k : String)
    (h : k ≠ cityName) :
    lookupKey (fetchWeather mkDate cityName currentResp forecastResp store log).1 k
      = lookupKey store k := by
  cases currentResp with
  | error e => rfl
  | ok cur =>
    cases forecastResp with
    | error e => rfl
    | ok items =>
      simp only [fetchWeather]
      cases mapForecastItems mkDate items with
      | error e => rfl
      | ok fps => exact lookupKey_setKey_ne store cityName k _ h

/-- Witness for C5: a successful fetch for Paris leaves the London entry
of the store untouched. -/
theorem c5_witness :
    lookupKey (fetchWeather (fun _ => sampleDate) "Paris"
        (Except.ok sampleCurrent) (Except.ok [])
        [("London", sampleSnapshot)] []).1 "London"
      = lookupKey [("London", sampleSnapshot)] "London" :=
  c5_keyed_merge (fun _ => sampleDate) "Paris" (Except.ok sampleCurrent)
    (Except.ok []) [("London", sampleSnapshot)] [] "London" (by decide)

/-! Claim C2 — the store is written only on joint success, as a complete
snapshot; every failure only logs. -/

/-- C2: if either lookup fails, `fetchWeather` leaves the store unchanged
and appends the diagnostic message to the log; and in every case the
result is either exactly that failure outcome or a single keyed write of
a complete snapshot (current plus forecast) built from two successful
responses — no partial entry and no error marker is ever written. -/
theorem c2_fetch_all_or_nothing (mkDate : Int → JSDate) (cityName : String)
    (currentResp : Except String CurrentConditions)
    (forecastResp : Except String (List RawForecastItem))
    (store : WeatherStore) (log : List String) :
    ((∃ e, currentResp = Except.error e) ∨ (∃ e, forecastResp = Except.error e) →
      fetchWeather mkDate cityName currentResp forecastResp store log
        = (store, log ++ [fetchErrorMessage]))
    ∧ (fetchWeather mkDate cityName currentResp forecastResp store log
          = (store, log ++ [fetchErrorMessage])
        ∨ ∃ cur items fps, currentResp = Except.ok cur
            ∧ forecastResp = Except.ok items
            ∧ mapForecastItems mkDate items = Except.ok fps
            ∧ fetchWeather mkDate cityName currentResp forecastResp store log
                = (setKey store cityName { current := cur, forecast := fps }, log)) := by
  constructor
  · intro h
    cases currentResp with
    | error e => rfl
    | ok cur =>
      cases forecastResp with
      | error e => rfl
      | ok items =>
        rcases h with ⟨e, he⟩ | ⟨e, he⟩ <;> exact absurd he (by simp)
  · cases currentResp with
    | error e => exact Or.inl rfl
    | ok cur =>
      cases forecastResp with
      | error e => exact Or.inl rfl
      | ok items =>
        simp only [fetchWeather]
        cases hm : mapForecastItems mkDate items with
        | error e => exact Or.inl rfl
        | ok fps =>
          exact Or.inr ⟨cur, items, fps, rfl, rfl, hm, rfl⟩

/-- Witness for C2: a failed current-conditions lookup leaves the empty
store empty and logs the diagnostic message. -/
theorem c2_witness :
    fetchWeather (fun _ => sampleDate) "Atlantis"
        (Except.error "Network Error") (Except.ok []) [] []
      = ([], [fetchErrorMessage]) :=
  (c2_fetch_all_or_nothing (fun _ => sampleDate) "Atlantis"
      (Except.error "Network Error") (Except.ok []) [] []).1
    (Or.inl ⟨"Network Error", rfl⟩)

/-! Claim C7 — corrected.  The priority list, the day/night-invariance
outside the clear and few-clouds categories, and both quoted instances
hold; but the universal "every description containing shower yields the
shower category" is false, because the clear, few-clouds,
scattered-clouds and broken/overcast rules are checked first. -/

/-- Counterexample to C7 as stated: the description containing the word
shower (and not rain) whose icon is nevertheless not the shower
category, because the clear rule matches first. -/
theorem c7_counterexample :
    strIncludes (jsToLowerCase "clear shower") "shower" = true
    ∧ strIncludes (jsToLowerCase "clear shower") "rain" = false
    ∧ getWeatherIcon "clear shower" true ≠ Icon.showers
    ∧ getWeatherIcon "clear shower" true = Icon.daySunny := by
  refine ⟨by decide, by decide, by decide, by decide⟩

/-- C7 (amended): a description containing the substring shower whose
lowering matches none of the higher-priority rules (clear, few clouds,
scattered clouds, broken clouds, overcast) maps to the shower category
— whether or not it also contains rain; outside the clear and
few-clouds rules the result ignores the day flag; and the two quoted
instances hold concretely. -/
theorem c7_icon_priority (description : String) (b : Bool) :
    (strIncludes (jsToLowerCase description) "shower" = true →
      strIncludes (jsToLowerCase description) "clear" = false →
      strIncludes (jsToLowerCase description) "few clouds" = false →
      strIncludes (jsToLowerCase description) "scattered clouds" = false →
      strIncludes (jsToLowerCase description) "broken clouds" = false →
      strIncludes (jsToLowerCase description) "overcast" = false →
      getWeatherIcon description b = Icon.showers)
    ∧ (strIncludes (jsToLowerCase description) "clear" = false →
        strIncludes (jsToLowerCase description) "few clouds" = false →
        getWeatherIcon description true = getWeatherIcon description false)
    ∧ getWeatherIcon "light rain showers" b = Icon.showers
    ∧ getWeatherIcon "broken clouds" b = Icon.cloudy := by
  refine ⟨?_, ?_, ?_, ?_⟩
  · intro h1 h2 h3 h4 h5 h6
    simp [getWeatherIcon, h1, h2, h3, h4, h5, h6]
  · intro h1 h2
    simp [getWeatherIcon, h1, h2]
  · cases b <;> decide
  · cases b <;> decide

/-- Witness for C7 at concrete descriptions. -/
theorem c7_witness :
    getWeatherIcon "light shower" true = Icon.showers
    ∧ getWeatherIcon "morning mist" true = getWeatherIcon "morning mist" false :=
  ⟨(c7_icon_priority "light shower" true).1 (by decide) (by decide) (by decide)
      (by decide) (by decide) (by decide),
   (c7_icon_priority "morning mist" true).2.1 (by decide) (by decide)⟩

/-! Claim C4 — registry invariant over arbitrary traces. -/

/-- The registry component of one step agrees with the spec-side fold. -/
theorem step_cities (s : DashState) (e : Event) :
    (step s e).cities = registryStep s.cities e := by
  cases e with
  | add n => simp only [step, registryStep]; split <;> rfl
  | remove n => rfl
  | fetchOk n c f => simp only [step, registryStep]; split <;> rfl
  | fetchErr n => simp only [step, registryStep]; split <;> rfl

/-- The registry component of a run is the spec-side fold. -/
theorem runFrom_cities (events : List Event) :
    ∀ s : DashState, (runFrom s events).cities = events.foldl registryStep s.cities := by
  induction events with
  | nil => intro s; rfl
  | cons e es ih =>
    intro s
    show (runFrom (step s e) es).cities = es.foldl registryStep (registryStep s.cities e)
    rw [ih (step s e), step_cities]

/-- One spec-side step keeps the registry duplicate-free. -/
theorem registryStep_nodup (reg : List String) (e : Event) (h : reg.Nodup) :
    (registryStep reg e).Nodup := by
  cases e with
  | add n =>
    simp only [registryStep]
    split
    · rename_i hc
      rw [← List.concat_eq_append]
      exact h.concat hc.2
    · exact h
  | remove n => exact h.filter _
  | fetchOk n c f => exact h
  | fetchErr n => exact h

/-- The spec-side fold keeps the registry duplicate-free. -/
theorem foldl_registryStep_nodup (events : List Event) :
    ∀ reg : List String, reg.Nodup → (events.foldl registryStep reg).Nodup := by
  induction events with
  | nil => intro reg h; exact h
  | cons e es ih => intro reg h; exact ih _ (registryStep_nodup reg e h)

/-- C4: after any finite event trace from the empty state, the registry
equals the successfully added names minus removed names in insertion
order (`registrySpec`), and it contains no duplicates. -/
theorem c4_registry_adds_minus_removes (events : List Event) :
    (run events).cities = registrySpec events ∧ (run events).cities.Nodup := by
  have hc : (run events).cities = registrySpec events := runFrom_cities events initState
  exact ⟨hc, hc ▸ foldl_registryStep_nodup events [] List.nodup_nil⟩

/-! Claim C1 — corrected.  Removal does delete the store entry together
with the registry entry, and the entry stays absent while no fetch for
that city completes; but a fetch started before the removal that
completes after it re-creates the store entry although the city is no
longer registered — the code has no guard on the merge. -/

/-- Counterexample to C1 as stated: add x, remove x, then let the fetch
started by the add complete.  The store again holds an entry for x
although x is not in the registry. -/
theorem c1_counterexample :
    "x" ∉ (run [Event.add "x", Event.remove "x",
        Event.fetchOk "x" sampleCurrent []]).cities
    ∧ lookupKey (run [Event.add "x", Event.remove "x",
        Event.fetchOk "x" sampleCurrent []]).weatherData "x"
        = some { current := sampleCurrent, forecast := [] } := by
  constructor <;> decide

/-- Registry additions do not touch the store. -/
theorem step_add_weatherData (s : DashState) (n : String) :
    (step s (Event.add n)).weatherData = s.weatherData := by
  simp only [step]; split <;> rfl

/-- Failed fetch completions do not touch the store. -/
theorem step_fetchErr_weatherData (s : DashState) (n : String) :
    (step s (Event.fetchErr n)).weatherData = s.weatherData := by
  simp only [step]; split <;> rfl

/-- A key absent from the store stays absent across any events that do
not successfully complete a fetch for it. -/
theorem lookup_none_preserved (x : String) (events : List Event) :
    ∀ s : DashState, lookupKey s.weatherData x = none →
      (∀ e ∈ events, isFetchOkFor x e = false) →
      lookupKey (runFrom s events).weatherData x = none := by
  induction events with
  | nil => intro s h _; exact h
  | cons e es ih =>
    intro s h hev
    have hev' : ∀ e0 ∈ es, isFetchOkFor x e0 = false :=
      fun e0 he0 => hev e0 (List.mem_cons_of_mem e he0)
    show lookupKey (runFrom (step s e) es).weatherData x = none
    refine ih (step s e) ?_ hev'
    cases e with
    | add n => rw [step_add_weatherData]; exact h
    | remove n =>
      by_cases hx : x = n
      · subst hx; exact lookupKey_removeKey_self s.weatherData x
      · show lookupKey (removeKey s.weatherData n) x = none
        rw [lookupKey_removeKey_other s.weatherData x n hx]; exact h
    | fetchOk n cur fps =>
      have hn : ¬ n = x := by
        have := hev (Event.fetchOk n cur fps) (List.mem_cons_self _ _)
        simpa [isFetchOkFor] using this
      simp only [step]
      split
      · show lookupKey (setKey s.weatherData n _) x = none
        rw [lookupKey_setKey_ne s.weatherData n x _ (fun hh => hn hh.symm)]
        exact h
      · exact h
    | fetchErr n => rw [step_fetchErr_weatherData]; exact h

/-- C1 (amended): removing x deletes its store entry atomically with its
registry entry, and no subsequent read of the store returns an entry
for x as long as no fetch for x completes successfully — however a
fetch for x started before the removal and completing after it does
re-create the entry (see the counterexample), so the absence guarantee
is conditional on no such completion rather than on re-adding x. -/
theorem c1_remove_then_absent (s : DashState) (x : String) (events : List Event)
    (hev : ∀ e ∈ events, isFetchOkFor x e = false) :
    lookupKey (step s (Event.remove x)).weatherData x = none
    ∧ x ∉ (step s (Event.remove x)).cities
    ∧ lookupKey (runFrom (step s (Event.remove x)) events).weatherData x = none := by
  have h1 : lookupKey (step s (Event.remove x)).weatherData x = none :=
    lookupKey_removeKey_self s.weatherData x
  refine ⟨h1, ?_, lookup_none_preserved x events _ h1 hev⟩
  show x ∉ s.cities.filter (fun c => c ≠ x)
  simp [List.mem_filter]

/-- Witness for C1: after removing x from a state that held a snapshot
for it, later unrelated events leave the store without an x entry. -/
theorem c1_witness :
    lookupKey (runFrom (step
        { cities := ["x"], weatherData := [("x", sampleSnapshot)],
          pending := ["x"], errorLog := [] }
        (Event.remove "x")) [Event.add "y", Event.fetchErr "y"]).weatherData "x"
      = none :=
  (c1_remove_then_absent
      { cities := ["x"], weatherData := [("x", sampleSnapshot)],
        pending := ["x"], errorLog := [] }
      "x" [Event.add "y", Event.fetchErr "y"] (by decide)).2.2

/-! Claim C8 — the grouping by calendar day. -/

/-- Pushing a point whose day key is not yet a group key appends a new
singleton group at the end. -/
theorem pushGroup_absent (acc : List (String × List ForecastPoint))
    (item : ForecastPoint) (h : dayKey item ∉ acc.map Prod.fst) :
    pushGroup acc item = acc ++ [(dayKey item, [item])] := by
  induction acc with
  | nil => rfl
  | cons p rest ih =>
    obtain ⟨k, g⟩ := p
    simp only [List.map_cons, List.mem_cons, not_or] at h
    simp only [pushGroup, if_neg (Ne.symm h.1), List.cons_append]
    rw [ih h.2]

/-- Pushing a point whose day key is already a group key appends the
point to that group, in place. -/
theorem pushGroup_present (acc : List (String × List ForecastPoint))
    (item : ForecastPoint) (hnd : (acc.map Prod.fst).Nodup)
    (h : dayKey item ∈ acc.map Prod.fst) :
    pushGroup acc item
      = acc.map (fun p => if p.1 = dayKey item then (p.1, p.2 ++ [item]) else p) := by
  induction acc with
  | nil => simp at h
  | cons p rest ih =>
    obtain ⟨k, g⟩ := p
    simp only [List.map_cons, List.nodup_cons] at hnd
    by_cases hk : k = dayKey item
    · simp only [pushGroup, if_pos hk, List.map_cons, if_pos hk]
      have hrest : rest.map (fun p => if p.1 = dayKey item then (p.1, p.2 ++ [item]) else p)
          = rest := by
        have hcong : ∀ p ∈ rest, (if p.1 = dayKey item then (p.1, p.2 ++ [item]) else p) = p := by
          intro p hp
          have : p.1 ≠ dayKey item := by
            intro hc
            exact hnd.1 (hk ▸ hc ▸ List.mem_map_of_mem Prod.fst hp)
          exact if_neg this
        exact (List.map_congr_left hcong).trans (List.map_id rest)
      rw [hrest]
    · have hmem : dayKey item ∈ rest.map Prod.fst := by
        rcases List.mem_cons.mp h with hc | hc
        · exact absurd hc.symm hk
        · exact hc
      simp only [pushGroup, if_neg hk, List.map_cons, if_neg hk]
      rw [ih hnd.2 hmem]

/-- In-place group updates do not change the key sequence. -/
theorem map_fst_update (acc : List (String × List ForecastPoint))
    (dk : String) (item : ForecastPoint) :
    (acc.map (fun p => if p.1 = dk then (p.1, p.2 ++ [item]) else p)).map Prod.fst
      = acc.map Prod.fst := by
  rw [List.map_map]
  apply List.map_congr_left
  intro p _
  by_cases h : p.1 = dk <;> simp [Function.comp, h]

/-- Only the membership of `seen` matters to `newDays`. -/
theorem newDays_congr (f : List ForecastPoint) :
    ∀ seen₁ seen₂ : List String, (∀ a, a ∈ seen₁ ↔ a ∈ seen₂) →
      newDays seen₁ f = newDays seen₂ f := by
  induction f with
  | nil => intro _ _ _; rfl
  | cons item rest ih =>
    intro seen₁ seen₂ h
    by_cases hm : dayKey item ∈ seen₁
    · simp only [newDays, if_pos hm, if_pos ((h _).mp hm)]
      exact ih seen₁ seen₂ h
    · simp only [newDays, if_neg hm, if_neg (fun hc => hm ((h _).mpr hc))]
      refine congrArg _ (ih _ _ ?_)
      intro a
      simp only [List.mem_cons, h a]

/-- Membership in `newDays`: exactly the day keys of the forecast that
are not already seen. -/
theorem mem_newDays (f : List ForecastPoint) :
    ∀ (seen : List String) (a : String),
      a ∈ newDays seen f ↔ a ∈ f.map dayKey ∧ a ∉ seen := by
  induction f with
  | nil => intro seen a; simp [newDays]
  | cons item rest ih =>
    intro seen a
    by_cases hm : dayKey item ∈ seen
    · simp only [newDays, if_pos hm, ih, List.map_cons, List.mem_cons]
      constructor
      · exact fun ⟨h1, h2⟩ => ⟨Or.inr h1, h2⟩
      · rintro ⟨h1 | h1, h2⟩
        · exact absurd (h1 ▸ hm) h2
        · exact ⟨h1, h2⟩
    · simp only [newDays, if_neg hm, List.mem_cons, ih, List.map_cons]
      constructor
      · rintro (h | ⟨h1, h2⟩)
        · exact ⟨Or.inl h, h ▸ hm⟩
        · exact ⟨Or.inr h1, fun hc => h2 (Or.inr hc)⟩
      · rintro ⟨h1 | h1, h2⟩
        · exact Or.inl h1
        · by_cases ha : a = dayKey item
          · exact Or.inl ha
          · exact Or.inr ⟨h1, by simp [List.mem_cons, ha, h2]⟩

/-- The first-seen day keys are duplicate-free. -/
theorem newDays_nodup (f : List ForecastPoint) :
    ∀ seen : List String, (newDays seen f).Nodup := by
  induction f with
  | nil => intro _; exact List.nodup_nil
  | cons item rest ih =>
    intro seen
    by_cases hm : dayKey item ∈ seen
    · simp only [newDays, if_pos hm]; exact ih seen
    · simp only [newDays, if_neg hm, List.nodup_cons]
      refine ⟨?_, ih _⟩
      intro hc
      exact ((mem_newDays rest _ _).mp hc).2 (List.mem_cons_self _ _)

/-- Invariant of the `reduce`: folding `pushGroup` from any accumulator
with duplicate-free keys extends each existing group by its same-day
points and appends the remaining first-seen day groups. -/
theorem foldl_pushGroup_spec (forecast : List ForecastPoint) :
    ∀ acc : List (String × List ForecastPoint), (acc.map Prod.fst).Nodup →
      forecast.foldl pushGroup acc
        = acc.map (fun p => (p.1, p.2 ++ forecast.filter (fun item => dayKey item = p.1)))
          ++ (newDays (acc.map Prod.fst) forecast).map
              (fun k => (k, forecast.filter (fun item => dayKey item = k))) := by
  induction forecast with
  | nil =>
    intro acc _
    simp [newDays]
  | cons item rest ih =>
    intro acc hnd
    rw [List.foldl_cons]
    by_cases hmem : dayKey item ∈ acc.map Prod.fst
    · rw [pushGroup_present acc item hnd hmem]
      rw [ih _ (by rw [map_fst_update]; exact hnd)]
      rw [map_fst_update]
      have hnew : newDays (acc.map Prod.fst) (item :: rest)
          = newDays (acc.map Prod.fst) rest := by
        simp only [newDays, if_pos hmem]
      rw [hnew]
      congr 1
      · rw [List.map_map]
        apply List.map_congr_left
        intro p hp
        by_cases hpk : p.1 = dayKey item
        · simp only [Function.comp_apply, if_pos hpk]
          rw [List.filter_cons, if_pos (by simp [hpk])]
          simp [List.append_assoc]
        · have hpk2 : ¬ dayKey item = p.1 := fun hc => hpk hc.symm
          simp only [Function.comp_apply, if_neg hpk]
          rw [List.filter_cons, if_neg (by simpa using hpk2)]
      · apply List.map_congr_left
        intro k hk
        have hknot : k ∉ acc.map Prod.fst := ((mem_newDays rest _ k).mp hk).2
        have hne : ¬ dayKey item = k := fun hc => hknot (hc ▸ hmem)
        rw [List.filter_cons, if_neg (by simpa using hne)]
    · rw [pushGroup_absent acc item hmem]
      have hnd' : ((acc ++ [(dayKey item, [item])]).map Prod.fst).Nodup := by
        simp only [List.map_append, List.map_cons, List.map_nil]
        rw [← List.concat_eq_append]
        exact hnd.concat hmem
      rw [ih _ hnd']
      rw [List.map_append, List.map_append]
      have hseen : newDays (acc.map Prod.fst ++ [(dayKey item, [item])].map Prod.fst) rest
          = newDays (dayKey item :: acc.map Prod.fst) rest :=
        newDays_congr rest _ _ (by intro a; simp [or_comm])
      rw [hseen]
      have hnewR : newDays (acc.map Prod.fst) (item :: rest)
          = dayKey item :: newDays (dayKey item :: acc.map Prod.fst) rest := by
        simp only [newDays, if_neg hmem]
      rw [hnewR, List.map_cons, List.append_assoc]
      congr 1
      · apply List.map_congr_left
        intro p hp
        have hpk : ¬ dayKey item = p.1 := by
          intro hc
          exact hmem (hc ▸ List.mem_map_of_mem Prod.fst hp)
        rw [List.filter_cons, if_neg (by simpa using hpk)]
      · rw [List.map_cons, List.map_nil, List.singleton_append]
        congr 1
        · rw [List.filter_cons, if_pos (by simp)]
          rfl
        · apply List.map_congr_left
          intro k hk
          have hknot : k ∉ dayKey item :: acc.map Prod.fst :=
            ((mem_newDays rest _ k).mp hk).2
          have hne : ¬ dayKey item = k := fun hc => hknot (hc ▸ List.mem_cons_self _ _)
          rw [List.filter_cons, if_neg (by simpa using hne)]

/-- C8: the grouped forecast equals the spec-side grouping — one group
per calendar-day key in first-occurrence order, each group being the
subsequence of input points of that day in original (chronological)
order — and the number of groups equals the number of distinct
calendar-day keys, so a forecast spanning two days yields exactly two
groups. -/
theorem c8_groupByDay_spec (forecast : List ForecastPoint) :
    groupByDay forecast = groupByDaySpec forecast
    ∧ (groupByDay forecast).length = ((forecast.map dayKey).dedup).length := by
  have h := foldl_pushGroup_spec forecast [] List.nodup_nil
  have hmain : groupByDay forecast = groupByDaySpec forecast := by
    simpa [groupByDay, groupByDaySpec] using h
  refine ⟨hmain, ?_⟩
  rw [hmain]
  have hlen : (groupByDaySpec forecast).length = (newDays [] forecast).length := by
    simp [groupByDaySpec]
  rw [hlen]
  have hperm : List.Perm (newDays [] forecast) ((forecast.map dayKey).dedup) := by
    refine (List.perm_ext_iff_of_nodup (newDays_nodup forecast [])
      (List.nodup_dedup _)).2 ?_
    intro a
    rw [mem_newDays]
    simp [List.mem_dedup]
  exact hperm.length_eq

end WeatherDashboard
